import Mathlib

/-!
Shallow embedding of the PyCmdMessenger protocol codec
(PyCmdMessenger/PyCmdMessenger.py): the send-side escaping and frame
compilation, the receive-side byte-stream scan state machine and its
post-loop classification, and the per-format-code argument codecs.

Modelling conventions:
* bytes are `Nat` values (wire bytes are < 256);
* Python `str` is `String` (parsing helpers work on `List Char`);
* Python `float` is modelled as an exact rational `ℚ` plus explicit
  infinity/NaN constructors; every theorem below evaluates floats only at
  values that are exactly representable, so no rounding is involved;
* fallible Python code returns `Except PyErr`, where raising an exception
  corresponds to the `.error` case and a successful return to `.ok`;
* the separator profile (field separator, command separator, escape byte)
  is a parameter, as in the constructor; the default profile is
  `(44, 59, 47)`, the byte codes of the default separators `,` `;` `/`.
-/

/-- Error kinds raised by the Python code: ValueError, OverflowError,
struct.error, KeyError (method-table dispatch on an unknown format code),
UnicodeDecodeError, and PCMMangledMessageError (which carries the partial
raw bytes used to build its message). -/
inductive PyErr where
  | valueError : PyErr
  | overflowError : PyErr
  | structError : PyErr
  | keyError : PyErr
  | unicodeError : PyErr
  | mangled : List Nat → PyErr
deriving DecidableEq, Repr

/-- Python values flowing through the codec: int, float (exact-rational
model plus signed infinity and NaN), bool, str, bytes. -/
inductive PyValue where
  | int : ℤ → PyValue
  | float : ℚ → PyValue
  | bool : Bool → PyValue
  | str : String → PyValue
  | bytes : List Nat → PyValue
  | inff : Bool → PyValue
  | nan : PyValue
deriving DecidableEq, Repr

/-- The separator profile fixed at session construction: field separator,
command separator and escape byte (single bytes). -/
structure Seps where
  fs : Nat
  cs : Nat
  es : Nat
deriving DecidableEq, Repr

/-- The default separator profile of the constructor: comma, semicolon, slash. -/
def defSep : Seps := ⟨44, 59, 47⟩

/-- Modelled from the spec: the ArduinoBoard device profile is not under
src/ (only the session code that reads its attributes is).  Per the spec it
declares, per numeric type, the byte width and pack layout used by
struct.pack and the declared numeric min/max bounds for int, unsigned int,
long, unsigned long, float and double.  Pack layouts in the profile are
little-endian fixed-width (the h-style little-endian format strings the session passes
to struct.pack). -/
structure Board where
  int_width : Nat
  int_min : ℤ
  int_max : ℤ
  unsigned_int_width : Nat
  unsigned_int_min : ℤ
  unsigned_int_max : ℤ
  long_width : Nat
  long_min : ℤ
  long_max : ℤ
  unsigned_long_width : Nat
  unsigned_long_min : ℤ
  unsigned_long_max : ℤ
  float_width : Nat
  float_min : ℚ
  float_max : ℚ
  double_width : Nat
  double_min : ℚ
  double_max : ℚ
deriving DecidableEq, Repr

/-- A concrete device profile used by the closed theorems below: 16-bit
ints, 32-bit longs, 4-byte floats with the binary32 bounds, 8-byte doubles
with the binary64 bounds (an ARM-style board where double is wider than
float). -/
def demoBoard : Board :=
  { int_width := 2, int_min := -32768, int_max := 32767
    unsigned_int_width := 2, unsigned_int_min := 0, unsigned_int_max := 65535
    long_width := 4, long_min := -2147483648, long_max := 2147483647
    unsigned_long_width := 4, unsigned_long_min := 0, unsigned_long_max := 4294967295
    float_width := 4, float_min := -340280000000000000000000000000000000000, float_max := 340280000000000000000000000000000000000
    double_width := 8, double_min := -100000000000000000000000000000000000000000000000000000000000000000000000000000000000000000000000000000000000000000000000000000000000000000000000000000000000000000000000000000000000000000000000000000000000000000000000000000000000000000000000000000000000000000000000000000000000000000000000000000000000000000000, double_max := 100000000000000000000000000000000000000000000000000000000000000000000000000000000000000000000000000000000000000000000000000000000000000000000000000000000000000000000000000000000000000000000000000000000000000000000000000000000000000000000000000000000000000000000000000000000000000000000000000000000000000000000 }

/-- ASCII whitespace bytes stripped by Python bytes.strip(). -/
def isPyWs (b : Nat) : Bool :=
  b == 32 || b == 9 || b == 10 || b == 13 || b == 11 || b == 12

/-- Python bytes.strip(): drop leading and trailing ASCII whitespace. -/
def stripBytes (bs : List Nat) : List Nat :=
  ((bs.dropWhile isPyWs).reverse.dropWhile isPyWs).reverse

/-- Little-endian byte list to unsigned value. -/
def lePatVal : List Nat → Nat
  | [] => 0
  | b :: r => b + 256 * lePatVal r

/-- Little-endian fixed-width packing of an integer, twos-complement:
struct.pack of an h-style format (the profile is assumed consistent, as
the spec requires the declared bounds to match the declared widths). -/
def packIntLE (w : Nat) (v : ℤ) : List Nat :=
  (List.range w).map (fun i => (v % ((2 : ℤ) ^ (8 * w))).toNat / 2 ^ (8 * i) % 256)

/-- Decimal ASCII rendering of a natural number, as the Python str-format call renders it. -/
def asciiDec (n : Nat) : List Nat :=
  (Nat.toDigits 10 n).map Char.toNat

/-- The send-side escape pass of _send_string: the regex sub that inserts
the escape byte before every occurrence of the field separator, command
separator, escape byte, or NUL. -/
def escapeField (S : Seps) : List Nat → List Nat
  | [] => []
  | b :: r =>
      (if b = S.fs ∨ b = S.cs ∨ b = S.es ∨ b = 0 then [S.es, b] else [b]) ++ escapeField S r

/-- The whole-frame NUL pass of send: the regex sub replacing every literal
NUL in the compiled byte string by escape byte + NUL. -/
def nullPass (S : Seps) : List Nat → List Nat
  | [] => []
  | b :: r => (if b = 0 then [S.es, 0] else [b]) ++ nullPass S r

/-- Result of the receive read loop: the field chunks accumulated (the
Python msg list, each field already joined), the joined raw bytes read, and
whether a command separator terminated the scan. -/
structure ScanRes where
  fields : List (List Nat)
  raw : List Nat
  found : Bool
deriving DecidableEq, Repr

/-- The receive read loop of the session (the FrameParser state machine):
one byte at a time; in the escaped state a reserved byte is emitted
literally and any other byte is emitted as escape byte followed by the byte
(recovery, not an error); in the accumulating state the escape byte enters
the escaped state, the field separator closes the field, the command
separator terminates the scan, exhaustion of the stream is the read
timeout (the empty-sentinel read), and any other byte is data.  A timeout
in the escaped state emits the escape byte literally and the loop then
terminates on the following timeout, exactly as the Python loop does. -/
def scanLoop (S : Seps) : List Nat → Bool → List (List Nat) → List Nat → List Nat → ScanRes
  | [], false, done, cur, raw => ⟨done ++ [cur], raw, false⟩
  | [], true, done, cur, raw => ⟨done ++ [cur ++ [S.es]], raw, false⟩
  | b :: rest, true, done, cur, raw =>
      if b = S.fs ∨ b = S.cs ∨ b = S.es ∨ b = 0 then
        scanLoop S rest false done (cur ++ [b]) (raw ++ [b])
      else
        scanLoop S rest false done (cur ++ [S.es, b]) (raw ++ [b])
  | b :: rest, false, done, cur, raw =>
      if b = S.es then scanLoop S rest true done cur (raw ++ [b])
      else if b = S.fs then scanLoop S rest false (done ++ [cur]) [] (raw ++ [b])
      else if b = S.cs then ⟨done ++ [cur], raw ++ [b], true⟩
      else scanLoop S rest false done (cur ++ [b]) (raw ++ [b])

/-- The receive read loop started from the initial state (msg = [[]],
nothing read, not escaped). -/
def scan0 (S : Seps) (stream : List Nat) : ScanRes :=
  scanLoop S stream false [] [] []

/-- Is the byte a UTF-8 continuation byte. -/
def utf8Cont (b : Nat) : Bool := 128 ≤ b && b < 192

/-- One step of strict UTF-8 decoding: consume one scalar value starting
at lead byte b with the following bytes, rejecting invalid lead bytes,
overlong forms, surrogates and out-of-range code points; returns the code
point and the remaining bytes. -/
def utf8Step (b : Nat) (rest : List Nat) : Option (Nat × List Nat) :=
  if b < 128 then some (b, rest)
  else if b < 194 then none
  else if b ≤ 223 then
    match rest with
    | b2 :: r => if utf8Cont b2 then some ((b - 192) * 64 + (b2 - 128), r) else none
    | [] => none
  else if b ≤ 239 then
    match rest with
    | b2 :: b3 :: r =>
        if (if b = 224 then 160 ≤ b2 && b2 < 192
            else if b = 237 then 128 ≤ b2 && b2 < 160
            else utf8Cont b2) && utf8Cont b3 then
          some ((b - 224) * 4096 + (b2 - 128) * 64 + (b3 - 128), r)
        else none
    | _ => none
  else if b ≤ 244 then
    match rest with
    | b2 :: b3 :: b4 :: r =>
        if (if b = 240 then 144 ≤ b2 && b2 < 192
            else if b = 244 then 128 ≤ b2 && b2 < 144
            else utf8Cont b2) && utf8Cont b3 && utf8Cont b4 then
          some ((b - 240) * 262144 + (b2 - 128) * 4096 + (b3 - 128) * 64 + (b4 - 128), r)
        else none
    | _ => none
  else none

/-- Strict UTF-8 decoding with a step-count bound (always called with the
byte count, which suffices because every step consumes the lead byte):
the semantics of Python bytes.decode(), where none models an uncaught
UnicodeDecodeError. -/
def utf8DecodeF : Nat → List Nat → Option (List Char)
  | _, [] => some []
  | 0, _ :: _ => none
  | fuel + 1, b :: rest =>
      match utf8Step b rest with
      | none => none
      | some (cp, r) => (utf8DecodeF fuel r).map (fun cs => Char.ofNat cp :: cs)

/-- Strict UTF-8 decoding of a byte list. -/
def utf8Decode (bs : List Nat) : Option (List Char) :=
  utf8DecodeF bs.length bs

/-- ASCII whitespace characters (the inputs reaching the string helpers are
ASCII-decoded, so this matches Python str.strip on them). -/
def isWsChar (c : Char) : Bool :=
  c = ' ' || c = '\t' || c = '\n' || c = '\r' || c = Char.ofNat 11 || c = Char.ofNat 12

/-- Strip leading and trailing characters satisfying p. -/
def stripCharsBy (p : Char → Bool) (cs : List Char) : List Char :=
  ((cs.dropWhile p).reverse.dropWhile p).reverse

/-- Parse a nonempty Python digit run with underscores allowed between
digits, returning the value and the number of digits; the boolean state
records whether the previous character was a digit. -/
def digitsRun : List Char → ℕ → ℕ → Bool → Option (ℕ × ℕ)
  | [], acc, cnt, last => if last then some (acc, cnt) else none
  | c :: r, acc, cnt, last =>
      if c.isDigit then digitsRun r (acc * 10 + (c.toNat - 48)) (cnt + 1) true
      else if c = '_' then (if last then digitsRun r acc cnt false else none)
      else none

/-- Python int(str): optional surrounding whitespace, optional sign, then a
digit run with underscores between digits. -/
def pyIntParse (cs : List Char) : Option ℤ :=
  let t := stripCharsBy isWsChar cs
  match t with
  | '+' :: r => (digitsRun r 0 0 false).map (fun p => (p.1 : ℤ))
  | '-' :: r => (digitsRun r 0 0 false).map (fun p => -(p.1 : ℤ))
  | r => (digitsRun r 0 0 false).map (fun p => (p.1 : ℤ))

/-- Split a character list at the first occurrence of c, if any. -/
def splitAtChar (c : Char) : List Char → Option (List Char × List Char)
  | [] => none
  | x :: r =>
      if x = c then some ([], r)
      else (splitAtChar c r).map (fun p => (x :: p.1, p.2))

/-- Parse the mantissa of a Python float literal: digits, optionally with
one decimal point, at least one digit overall; returns the value scaled to
an integer together with the number of fractional digits. -/
def mantissaParse (cs : List Char) : Option (ℕ × ℕ) :=
  match splitAtChar '.' cs with
  | none => (digitsRun cs 0 0 false).map (fun p => (p.1, 0))
  | some (l, r) =>
      match l, r with
      | [], [] => none
      | [], _ => (digitsRun r 0 0 false).map (fun p => p)
      | _, [] => (digitsRun l 0 0 false).map (fun p => (p.1, 0))
      | _, _ =>
          match digitsRun l 0 0 false, digitsRun r 0 0 false with
          | some pl, some pr => some (pl.1 * 10 ^ pr.2 + pr.1, pr.2)
          | _, _ => none

/-- Parse an optionally signed exponent digit run. -/
def expParse (cs : List Char) : Option ℤ :=
  match cs with
  | '+' :: r => (digitsRun r 0 0 false).map (fun p => (p.1 : ℤ))
  | '-' :: r => (digitsRun r 0 0 false).map (fun p => -(p.1 : ℤ))
  | r => (digitsRun r 0 0 false).map (fun p => (p.1 : ℤ))

/-- Find the single exponent marker e or E, if present; a second marker
anywhere makes the literal invalid, which the exponent digit parse rejects
on its own. -/
def splitExp (cs : List Char) : (List Char × Option (List Char)) :=
  match splitAtChar 'e' cs with
  | some (l, r) => (l, some r)
  | none =>
      match splitAtChar 'E' cs with
      | some (l, r) => (l, some r)
      | none => (cs, none)

/-- Python float(str) restricted to finite decimal literals, returning the
exact rational value: whitespace, sign, mantissa with optional point,
optional exponent.  The non-finite spellings inf and nan are handled
separately by floatAccepts. -/
def pyFloatVal (cs : List Char) : Option ℚ :=
  let t := stripCharsBy isWsChar cs
  let sb : ℤ × List Char :=
    match t with
    | '+' :: r => (1, r)
    | '-' :: r => (-1, r)
    | r => (1, r)
  let me := splitExp sb.2
  match mantissaParse me.1 with
  | none => none
  | some (m, fracDigits) =>
      let eOpt : Option ℤ :=
        match me.2 with
        | none => some 0
        | some ecs => expParse ecs
      match eOpt with
      | none => none
      | some e =>
          let eTot : ℤ := e - fracDigits
          some (mkRat (sb.1 * m * ((10 ^ eTot.toNat : ℕ) : ℤ)) (10 ^ (-eTot).toNat))

/-- Lower-case an ASCII letter. -/
def lowerChar (c : Char) : Char :=
  if 65 ≤ c.toNat && c.toNat ≤ 90 then Char.ofNat (c.toNat + 32) else c

/-- The non-finite Python float spellings, case-insensitive, after sign
removal: inf, infinity, nan. -/
def isInfNanBody (cs : List Char) : Bool :=
  let l := cs.map lowerChar
  l = ['i', 'n', 'f'] || l = ['i', 'n', 'f', 'i', 'n', 'i', 't', 'y'] || l = ['n', 'a', 'n']

/-- Does Python float(str) succeed on this text (finite literal or a
non-finite spelling). -/
def floatAccepts (cs : List Char) : Bool :=
  (pyFloatVal cs).isSome ||
    (let t := stripCharsBy isWsChar cs
     match t with
     | '+' :: r => isInfNanBody r
     | '-' :: r => isInfNanBody r
     | r => isInfNanBody r)

/-- Unsigned value to little-endian byte list of width w. -/
def bytesLE (w : Nat) (pat : Nat) : List Nat :=
  (List.range w).map (fun i => pat / 2 ^ (8 * i) % 256)

/-- Round to nearest integer, ties to even (IEEE default rounding). -/
def roundHE (q : ℚ) : ℤ :=
  let f := ⌊q⌋
  let r := q - (f : ℚ)
  if r < 1 / 2 then f else if 1 / 2 < r then f + 1 else if f % 2 = 0 then f else f + 1

/-- Exponent and mantissa bit counts of the IEEE format of the given byte
width: binary64 for 8 bytes, binary32 otherwise. -/
def ieeeParams (w : Nat) : Nat × Nat := if w = 8 then (11, 52) else (8, 23)

/-- IEEE bit pattern of a positive rational magnitude with the given sign:
normal, subnormal and overflow-to-infinity handling with round to nearest
even. -/
def ieeeBits (eb mb : Nat) (s : Bool) (a : ℚ) : Nat :=
  let bias : ℤ := 2 ^ (eb - 1) - 1
  let sbit : Nat := if s then 2 ^ (eb + mb) else 0
  let e0 : ℤ := Int.log 2 a
  let m0 : ℤ := roundHE (a * (2 : ℚ) ^ ((mb : ℤ) - e0))
  let em : ℤ × ℤ := if m0 = 2 ^ (mb + 1) then (e0 + 1, (2 : ℤ) ^ mb) else (e0, m0)
  if bias < em.1 then sbit + (2 ^ eb - 1) * 2 ^ mb
  else if 1 - bias ≤ em.1 then
    sbit + (em.1 + bias).toNat * 2 ^ mb + (em.2 - 2 ^ mb).toNat
  else
    let msub : ℤ := roundHE (a * (2 : ℚ) ^ ((mb : ℤ) + bias - 1))
    if (2 : ℤ) ^ mb ≤ msub then sbit + 2 ^ mb else sbit + msub.toNat

/-- struct.pack of a finite float value at the profile width. -/
def ieeePackBytes (w : Nat) (q : ℚ) : List Nat :=
  let p := ieeeParams w
  bytesLE w (if q = 0 then 0 else ieeeBits p.1 p.2 (decide (q < 0)) |q|)

/-- struct.pack of a quiet NaN at the profile width. -/
def nanBytes (w : Nat) : List Nat :=
  let p := ieeeParams w
  bytesLE w ((2 ^ p.1 - 1) * 2 ^ p.2 + 2 ^ (p.2 - 1))

/-- struct.unpack of an IEEE value at the profile width: exact rational for
finite patterns, explicit constructors for infinities and NaN. -/
def ieeeUnpackVal (w : Nat) (bs : List Nat) : PyValue :=
  let p := ieeeParams w
  let bias : ℤ := 2 ^ (p.1 - 1) - 1
  let pat := lePatVal bs
  let m := pat % 2 ^ p.2
  let e := pat / 2 ^ p.2 % 2 ^ p.1
  let s : Bool := pat / 2 ^ (p.1 + p.2) % 2 = 1
  let sgn : ℚ := if s then -1 else 1
  if e = 2 ^ p.1 - 1 then (if m = 0 then .inff s else .nan)
  else if e = 0 then .float (sgn * (m : ℚ) * (2 : ℚ) ^ (1 - bias - (p.2 : ℤ)))
  else .float (sgn * ((2 ^ p.2 + m : ℕ) : ℚ) * (2 : ℚ) ^ ((e : ℤ) - bias - (p.2 : ℤ)))

/-- Decimal digits of a natural number padded to at least two digits, for
the exponent of the scientific format. -/
def natDecPad2 (n : Nat) : List Char :=
  let ds := Nat.toDigits 10 n
  if ds.length < 2 then '0' :: ds else ds

/-- The fixed ten-digit scientific rendering of _send_guess for float
values, on the exact-rational float model. -/
def sciFormat (q : ℚ) : List Char :=
  if q = 0 then ('0' :: '.' :: List.replicate 10 '0') ++ ['e', '+', '0', '0']
  else
    let a := |q|
    let e0 : ℤ := Int.log 10 a
    let d0 : ℤ := roundHE (a * (10 : ℚ) ^ ((10 : ℤ) - e0))
    let de : ℤ × ℤ := if d0 = 10 ^ 11 then (10 ^ 10, e0 + 1) else (d0, e0)
    let digits := Nat.toDigits 10 de.1.toNat
    (if q < 0 then ['-'] else []) ++ [digits.headD '0'] ++ ['.'] ++ digits.tail ++
      ['e'] ++ (if de.2 < 0 then ['-'] else ['+']) ++ natDecPad2 de.2.natAbs

/-- ASCII encoding of text, as str.encode: fails on any non-ASCII
character (UnicodeEncodeError). -/
def encodeAsciiChars (cs : List Char) : Option (List Nat) :=
  if cs.all (fun c => c.toNat < 128) then some (cs.map Char.toNat) else none

/-- Python int(value) coercion applied by the numeric send methods when
the value is not already an int: truncation for floats, 0/1 for bools,
text parse for str and (ASCII-decoded) bytes; none models the exception
raised for unconvertible values (including int of a non-finite float,
which raises in Python). -/
def pyToInt : PyValue → Option ℤ
  | .int n => some n
  | .float q => some (if 0 ≤ q then ⌊q⌋ else -⌊-q⌋)
  | .bool b => some (if b then 1 else 0)
  | .str s => pyIntParse s.data
  | .bytes bs => match utf8Decode bs with | some cs => pyIntParse cs | none => none
  | .inff _ => none
  | .nan => none

/-- Python float(value) coercion applied by _send_float and _send_double
when the value is not already a float, restricted to finite results; the
non-finite inputs are handled by the callers directly. -/
def pyToFloat : PyValue → Option ℚ
  | .float q => some q
  | .int n => some (n : ℚ)
  | .bool b => some (if b then 1 else 0)
  | .str s => pyFloatVal s.data
  | .bytes bs => match utf8Decode bs with | some cs => pyFloatVal cs | none => none
  | .inff _ => none
  | .nan => none

/-- Python truthiness, as used by struct.pack of the bool format. -/
def truthy : PyValue → Bool
  | .int n => decide (n ≠ 0)
  | .float q => decide (q ≠ 0)
  | .bool b => b
  | .str s => decide (s ≠ "")
  | .bytes bs => decide (bs ≠ [])
  | .inff _ => true
  | .nan => true

/-- Python numeric equality of a value against an integer constant, as in
the membership test value in [0, 1] of _send_bool: ints, floats and bools
compare numerically, everything else compares unequal. -/
def pyEqInt (v : PyValue) (k : ℤ) : Bool :=
  match v with
  | .int n => n == k
  | .float q => q == (k : ℚ)
  | .bool b => (if b then (1 : ℤ) else 0) == k
  | _ => false

/-- Text rendering by the str-format call, for the value kinds the send path can
pass to it (bytes never reach it in _send_string; float rendering uses the
scientific form on the exact-rational model, standing in for repr). -/
def pyFormat : PyValue → List Char
  | .int n => (if n < 0 then ['-'] else []) ++ Nat.toDigits 10 n.natAbs
  | .bool b => if b then ['T', 'r', 'u', 'e'] else ['F', 'a', 'l', 's', 'e']
  | .str s => s.data
  | .float q => sciFormat q
  | .inff s => if s then ['-', 'i', 'n', 'f'] else ['i', 'n', 'f']
  | .nan => ['n', 'a', 'n']
  | .bytes bs => bs.map Char.ofNat

/-- _send_char: accepts only str and bytes; the length check raises for
every nonempty value (the code tests len > 0 where its own error message
says a single character is required), and the empty value then fails
struct.pack, which demands exactly one byte. -/
def sendChar (v : PyValue) : Except PyErr (List Nat) :=
  match v with
  | .str s =>
      if s.length > 0 then .error .valueError
      else
        match encodeAsciiChars s.data with
        | some bs => if bs.length = 1 then .ok bs else .error .structError
        | none => .error .unicodeError
  | .bytes bs =>
      if bs.length > 0 then .error .valueError
      else if bs.length = 1 then .ok bs else .error .structError
  | _ => .error .valueError

/-- Common shape of the four integer send methods: coerce with int(),
range-check against the declared bounds, pack little-endian at the declared
width. -/
def sendIntG (w : Nat) (lo hi : ℤ) (v : PyValue) : Except PyErr (List Nat) :=
  match pyToInt v with
  | none => .error .valueError
  | some n => if hi < n ∨ n < lo then .error .overflowError else .ok (packIntLE w n)

/-- Common shape of _send_float and _send_double: coerce with float(),
range-check, pack IEEE at the given width.  A non-finite infinity always
fails the range check (it exceeds any declared finite bound); NaN compares
false against both bounds and is packed. -/
def sendFloatG (w : Nat) (lo hi : ℚ) (v : PyValue) : Except PyErr (List Nat) :=
  match v with
  | .inff _ => .error .overflowError
  | .nan => .ok (nanBytes w)
  | _ =>
      match pyToFloat v with
      | none => .error .valueError
      | some q => if hi < q ∨ q < lo then .error .overflowError else .ok (ieeePackBytes w q)

/-- _send_double: packs at the double width but range-checks against the
float bounds of the profile, exactly as the source does (lines 419-424 use
board.float_max and board.float_min). -/
def sendDouble (b : Board) (v : PyValue) : Except PyErr (List Nat) :=
  sendFloatG b.double_width b.float_min b.float_max v

/-- _send_string: non-bytes values are rendered by the str-format call and encoded
as ASCII (raising on non-ASCII text), then the escape pass inserts the
escape byte before every reserved byte. -/
def sendString (S : Seps) (v : PyValue) : Except PyErr (List Nat) :=
  match v with
  | .bytes bs => .ok (escapeField S bs)
  | w =>
      match encodeAsciiChars (pyFormat w) with
      | some bs => .ok (escapeField S bs)
      | none => .error .unicodeError

/-- _send_bool: a non-bool value is accepted exactly when it compares
numerically equal to 0 or 1; the packed byte is the truthiness of the
value. -/
def sendBool (v : PyValue) : Except PyErr (List Nat) :=
  match v with
  | .bool b => .ok [if b then 1 else 0]
  | w => if pyEqInt w 0 || pyEqInt w 1 then .ok [if truthy w then 1 else 0]
         else .error .valueError

/-- _send_guess: floats render in fixed scientific form, bools as 0/1,
bytes pass through unchanged, everything else is str-format text encoded
as ASCII. -/
def sendGuess (v : PyValue) : Except PyErr (List Nat) :=
  match v with
  | .float q =>
      match encodeAsciiChars (sciFormat q) with
      | some bs => .ok bs
      | none => .error .unicodeError
  | .inff s => .ok ((pyFormat (.inff s)).map Char.toNat)
  | .nan => .ok ((pyFormat .nan).map Char.toNat)
  | .bool b => .ok [if b then 49 else 48]
  | .bytes bs => .ok bs
  | w =>
      match encodeAsciiChars (pyFormat w) with
      | some bs => .ok bs
      | none => .error .unicodeError

/-- The character-keyed send method table; an unknown format code is a
KeyError at dispatch. -/
def sendMethod (S : Seps) (b : Board) (c : Char) (v : PyValue) : Except PyErr (List Nat) :=
  if c = 'c' then sendChar v
  else if c = 'i' then sendIntG b.int_width b.int_min b.int_max v
  else if c = 'I' then sendIntG b.unsigned_int_width b.unsigned_int_min b.unsigned_int_max v
  else if c = 'l' then sendIntG b.long_width b.long_min b.long_max v
  else if c = 'L' then sendIntG b.unsigned_long_width b.unsigned_long_min b.unsigned_long_max v
  else if c = 'f' then sendFloatG b.float_width b.float_min b.float_max v
  else if c = 'd' then sendDouble b v
  else if c = 's' then sendString S v
  else if c = '?' then sendBool v
  else if c = 'g' then sendGuess v
  else .error .keyError

/-- Encode the argument fields left to right; the first exception aborts
the call before anything is written. -/
def encodeFields (S : Seps) (b : Board) : List (Char × PyValue) → Except PyErr (List (List Nat))
  | [] => .ok []
  | (c, v) :: r =>
      match sendMethod S b c v with
      | .error e => .error e
      | .ok bs =>
          match encodeFields S b r with
          | .error e => .error e
          | .ok rest => .ok (bs :: rest)

/-- The name-to-id dictionary built by the constructor from the ordered
command-name list; a duplicated name maps to its last position, as dict
insertion overwrites. -/
def cmdNameToInt (names : List String) (cmd : String) : Option Nat :=
  (List.range names.length).foldl
    (fun acc i => if names.get? i = some cmd then some i else acc) none

/-- The per-command default format registry built by the constructor.
Faithful to __init__: the command_formats parameter is accepted but never
stored, so the registry is always empty (line 70 creates an empty dict that
nothing ever fills). -/
def initRegistry (commandFormats : List (String × List Char)) : List (String × List Char) :=
  []

/-- Dictionary lookup in the format registry. -/
def lookupReg (reg : List (String × List Char)) (cmd : String) : Option (List Char) :=
  match reg with
  | [] => none
  | (k, f) :: r => if k = cmd then some f else lookupReg r cmd

/-- Frame compilation of send: fields joined by the field separator,
terminated by the command separator, then the whole-frame NUL pass. -/
def compileFrame (S : Seps) (fields : List (List Nat)) : List Nat :=
  nullPass S (List.intercalate [S.fs] fields ++ [S.cs])

/-- The send path: resolve the command id (ValueError if the name is
unknown), resolve the argument formats (explicit list first; otherwise the
registry is consulted, but a hit leaves the working format list empty — the
source assigns the lookup to arg_formats and never copies it into
arg_format_list — and a miss falls back to guess for every argument), check
the count, encode the fields, compile the frame.  The ok value is the byte
string written to the Transport; an error writes nothing. -/
def send (S : Seps) (b : Board) (names : List String) (reg : List (String × List Char))
    (cmd : String) (args : List PyValue) (argFormats : Option (List Char)) :
    Except PyErr (List Nat) :=
  match cmdNameToInt names cmd with
  | none => .error .valueError
  | some cid =>
      let fmtList : List Char :=
        match argFormats with
        | some fl => fl
        | none =>
            match lookupReg reg cmd with
            | some _ => []
            | none => List.replicate args.length 'g'
      if fmtList.length ≠ args.length then .error .valueError
      else
        match encodeFields S b (fmtList.zip args) with
        | .error e => .error e
        | .ok encoded => .ok (compileFrame S (asciiDec cid :: encoded))

/-- _recv_string: decode as ASCII (raising on any byte ≥ 128), strip NUL
characters, then strip surrounding whitespace. -/
def recvStringE (bs : List Nat) : Except PyErr PyValue :=
  if bs.all (fun x => x < 128) then
    .ok (.str (String.mk
      (stripCharsBy isWsChar (stripCharsBy (fun c => c = Char.ofNat 0) (bs.map Char.ofNat)))))
  else .error .unicodeError

/-- _recv_guess: decode the bytes (an undecodable field raises), try
float() on the text; when it succeeds and the text has no decimal point,
return int() of the text, falling back to the string decode when that
raises; with a decimal point return the float value; when float() fails,
fall back to the string decode. -/
def recvGuess (bs : List Nat) : Except PyErr PyValue :=
  match utf8Decode bs with
  | none => .error .unicodeError
  | some cs =>
      if floatAccepts cs then
        if cs.contains '.' then
          match pyFloatVal cs with
          | some q => .ok (.float q)
          | none => recvStringE bs
        else
          match pyIntParse cs with
          | some n => .ok (.int n)
          | none => recvStringE bs
      else recvStringE bs

/-- Common shape of the integer receive methods: struct.unpack demands the
exact declared width, then reads little-endian, twos-complement when
signed. -/
def recvIntG (w : Nat) (signed : Bool) (bs : List Nat) : Except PyErr PyValue :=
  if bs.length = w then
    let n := lePatVal bs
    .ok (.int (if signed && decide (2 ^ (8 * w - 1) ≤ n) then (n : ℤ) - 2 ^ (8 * w) else (n : ℤ)))
  else .error .structError

/-- The character-keyed receive method table.  Note the d entry: the source
of _recv_double unpacks with board.float_type (line 524), so the double
format is decoded at the float width — faithful to that slip. -/
def recvMethod (b : Board) (c : Char) (bs : List Nat) : Except PyErr PyValue :=
  if c = 'c' then (if bs.length = 1 then .ok (.bytes bs) else .error .structError)
  else if c = 'i' then recvIntG b.int_width true bs
  else if c = 'I' then recvIntG b.unsigned_int_width false bs
  else if c = 'l' then recvIntG b.long_width true bs
  else if c = 'L' then recvIntG b.unsigned_long_width false bs
  else if c = 'f' then
    (if bs.length = b.float_width then .ok (ieeeUnpackVal b.float_width bs)
     else .error .structError)
  else if c = 'd' then
    (if bs.length = b.float_width then .ok (ieeeUnpackVal b.float_width bs)
     else .error .structError)
  else if c = 's' then recvStringE bs
  else if c = '?' then (if bs.length = 1 then .ok (.bool (decide (bs.headD 0 ≠ 0)))
                        else .error .structError)
  else if c = 'g' then recvGuess bs
  else .error .keyError

/-- Decode the argument fields left to right; the first exception aborts
the receive call. -/
def decodeFields (b : Board) : List (Char × List Nat) → Except PyErr (List PyValue)
  | [] => .ok []
  | (c, f) :: r =>
      match recvMethod b c f with
      | .error e => .error e
      | .ok v =>
          match decodeFields b r with
          | .error e => .error e
          | .ok rest => .ok (v :: rest)

/-- Python list indexing with an int index: nonnegative indices read from
the front, negative indices count from the end, anything else is an
IndexError (none). -/
def pyIndex (names : List String) (i : ℤ) : Option String :=
  if 0 ≤ i then names.get? i.toNat
  else if 0 ≤ i + names.length then names.get? (i + names.length).toNat
  else none

/-- The post-scan half of receive: strip and decode the command-id field
(an undecodable id field raises), parse it as an int and index the command
table — a ValueError or IndexError falls back to the sentinel name
the sentinel name unknown with a non-fatal warning; resolve the argument formats with the
same priority (and the same empty-list slip on a registry hit) as send;
check the count; decode the argument fields; deliver (name, values,
timestamp). -/
def processFields (b : Board) (names : List String) (reg : List (String × List Char))
    (argFormats : Option (List Char)) (t : ℚ) (fields : List (List Nat)) :
    Except PyErr (Option (String × List PyValue × ℚ)) :=
  match fields with
  | [] => .error .valueError
  | f0 :: rest =>
      match utf8Decode (stripBytes f0) with
      | none => .error .unicodeError
      | some cs =>
          let cmdName : String :=
            match pyIntParse cs with
            | some i => (pyIndex names i).getD ("unknown")
            | none => ("unknown")
          let fmtList : List Char :=
            match argFormats with
            | some fl => fl
            | none =>
                match lookupReg reg cmdName with
                | some _ => []
                | none => List.replicate rest.length 'g'
          if fmtList.length ≠ rest.length then .error .valueError
          else
            match decodeFields b (fmtList.zip rest) with
            | .error e => .error e
            | .ok vals => .ok (some (cmdName, vals, t))

/-- The post-loop classification of receive. -/
inductive ScanClass where
  | noMessage : ScanClass
  | mangled : List Nat → ScanClass
  | unicodeErr : ScanClass
  | gotFields : List (List Nat) → ScanClass
deriving DecidableEq, Repr

/-- Post-loop classification, lines 234-247 of the source: nothing
accumulated is no message (even when a bare command separator terminated
the scan); without a terminator, whitespace-only raw bytes are no message,
and otherwise the mangled-message error is raised — whose message
interpolates joined_raw.decode(), so raw bytes that are not valid UTF-8
raise a UnicodeDecodeError instead. -/
def classifyScan (r : ScanRes) : ScanClass :=
  if r.fields = [[]] then .noMessage
  else if r.found = false then
    (if stripBytes r.raw = [] then .noMessage
     else if (utf8Decode r.raw).isSome then .mangled r.raw
     else .unicodeErr)
  else .gotFields r.fields

/-- The receive path over a byte stream whose exhaustion models the read
timeout: scan, classify, then process the fields; t is the arrival
timestamp recorded on success. -/
def receive (S : Seps) (b : Board) (names : List String) (reg : List (String × List Char))
    (argFormats : Option (List Char)) (t : ℚ) (stream : List Nat) :
    Except PyErr (Option (String × List PyValue × ℚ)) :=
  match classifyScan (scan0 S stream) with
  | .noMessage => .ok none
  | .mangled raw => .error (.mangled raw)
  | .unicodeErr => .error .unicodeError
  | .gotFields fs => processFields b names reg argFormats t fs

/-- Scans a transmitted byte sequence with the escape discipline and
reports whether it is free of unescaped occurrences of the field and
command separators: an escape byte consumes the following byte, a bare
field or command separator is an unescaped occurrence, a trailing bare
escape byte (which would swallow the following frame byte) also fails. -/
def rsvOk (S : Seps) : List Nat → Bool → Bool
  | [], e => !e
  | _ :: r, true => rsvOk S r false
  | b :: r, false =>
      if b = S.es then rsvOk S r true
      else if b = S.fs ∨ b = S.cs then false
      else rsvOk S r false

theorem utf8DecodeF_ascii (fuel : Nat) : ∀ bs : List Nat, bs.length ≤ fuel →
    (∀ x ∈ bs, x < 128) → utf8DecodeF fuel bs = some (bs.map Char.ofNat) := by
  induction fuel with
  | zero =>
      intro bs hl _
      cases bs with
      | nil => rfl
      | cons b r => simp at hl
  | succ fuel ih =>
      intro bs hl h
      cases bs with
      | nil => rfl
      | cons b r =>
          have hb : b < 128 := h b (List.mem_cons_self b r)
          have hr : ∀ x ∈ r, x < 128 := fun x hx => h x (List.mem_cons_of_mem b hx)
          have hlen : r.length ≤ fuel := by
            simp only [List.length_cons] at hl
            omega
          have hstep : utf8Step b r = some (b, r) := by simp [utf8Step, hb]
          simp only [utf8DecodeF, hstep]
          rw [ih r hlen hr]
          rfl

theorem utf8Decode_ascii (bs : List Nat) (h : ∀ x ∈ bs, x < 128) :
    utf8Decode bs = some (bs.map Char.ofNat) :=
  utf8DecodeF_ascii bs.length bs le_rfl h

theorem recvStringE_ok (bs : List Nat) (h : ∀ x ∈ bs, x < 128) :
    (recvStringE bs).isOk = true := by
  have hall : bs.all (fun x => x < 128) = true := by
    simp only [List.all_eq_true, decide_eq_true_eq]
    exact h
  unfold recvStringE
  rw [hall]
  rfl

theorem scanLoop_raw (S : Seps) (bs : List Nat) :
    ∀ (e : Bool) done cur raw, (scanLoop S bs e done cur raw).found = false →
      (scanLoop S bs e done cur raw).raw = raw ++ bs := by
  induction bs with
  | nil => intro e done cur raw _; cases e <;> simp [scanLoop]
  | cons b r ih =>
      intro e done cur raw hf
      cases e with
      | true =>
          by_cases hb : b = S.fs ∨ b = S.cs ∨ b = S.es ∨ b = 0
          · simp only [scanLoop, if_pos hb] at hf ⊢
            rw [ih _ _ _ _ hf]
            simp
          · simp only [scanLoop, if_neg hb] at hf ⊢
            rw [ih _ _ _ _ hf]
            simp
      | false =>
          by_cases h1 : b = S.es
          · simp only [scanLoop, if_pos h1] at hf ⊢
            rw [ih _ _ _ _ hf]
            simp
          · by_cases h2 : b = S.fs
            · simp only [scanLoop, if_neg h1, if_pos h2] at hf ⊢
              rw [ih _ _ _ _ hf]
              simp
            · by_cases h3 : b = S.cs
              · simp only [scanLoop, if_neg h1, if_neg h2, if_pos h3] at hf
                exact absurd hf (by decide)
              · simp only [scanLoop, if_neg h1, if_neg h2, if_neg h3] at hf ⊢
                rw [ih _ _ _ _ hf]
                simp

theorem append_singleton_ne (d : List (List Nat)) (c : List Nat) (hc : c ≠ []) :
    d ++ [c] ≠ [[]] := by
  cases d with
  | nil => simpa using hc
  | cons x xs => simp

theorem scanLoop_fields_ne (S : Seps) (bs : List Nat) :
    ∀ (e : Bool) done cur raw, (e = true ∨ done ≠ [] ∨ cur ≠ []) →
      (scanLoop S bs e done cur raw).found = false →
      (scanLoop S bs e done cur raw).fields ≠ [[]] := by
  induction bs with
  | nil =>
      intro e done cur raw hinv _
      cases e with
      | true =>
          simp only [scanLoop]
          exact append_singleton_ne done (cur ++ [S.es]) (by simp)
      | false =>
          rcases hinv with h | h | h
          · exact absurd h (by decide)
          · simp only [scanLoop]
            cases done with
            | nil => exact absurd rfl h
            | cons x xs => simp
          · simp only [scanLoop]
            exact append_singleton_ne done cur h
  | cons b r ih =>
      intro e done cur raw hinv hf
      cases e with
      | true =>
          by_cases hb : b = S.fs ∨ b = S.cs ∨ b = S.es ∨ b = 0
          · simp only [scanLoop, if_pos hb] at hf ⊢
            exact ih false done (cur ++ [b]) _ (Or.inr (Or.inr (by simp))) hf
          · simp only [scanLoop, if_neg hb] at hf ⊢
            exact ih false done (cur ++ [S.es, b]) _ (Or.inr (Or.inr (by simp))) hf
      | false =>
          by_cases h1 : b = S.es
          · simp only [scanLoop, if_pos h1] at hf ⊢
            exact ih true done cur _ (Or.inl rfl) hf
          · by_cases h2 : b = S.fs
            · simp only [scanLoop, if_neg h1, if_pos h2] at hf ⊢
              exact ih false (done ++ [cur]) [] _ (Or.inr (Or.inl (by simp))) hf
            · by_cases h3 : b = S.cs
              · simp only [scanLoop, if_neg h1, if_neg h2, if_pos h3] at hf
                exact absurd hf (by decide)
              · simp only [scanLoop, if_neg h1, if_neg h2, if_neg h3] at hf ⊢
                exact ih false done (cur ++ [b]) _ (Or.inr (Or.inr (by simp))) hf

theorem scan0_fields_ne (S : Seps) (b : Nat) (r : List Nat)
    (hf : (scan0 S (b :: r)).found = false) : (scan0 S (b :: r)).fields ≠ [[]] := by
  unfold scan0 at hf ⊢
  by_cases h1 : b = S.es
  · simp only [scanLoop, if_pos h1] at hf ⊢
    exact scanLoop_fields_ne S r true [] [] _ (Or.inl rfl) hf
  · by_cases h2 : b = S.fs
    · simp only [scanLoop, if_neg h1, if_pos h2] at hf ⊢
      exact scanLoop_fields_ne S r false [[]] [] _ (Or.inr (Or.inl (by simp))) hf
    · by_cases h3 : b = S.cs
      · simp only [scanLoop, if_neg h1, if_neg h2, if_pos h3] at hf
        exact absurd hf (by decide)
      · simp only [scanLoop, if_neg h1, if_neg h2, if_neg h3] at hf ⊢
        exact scanLoop_fields_ne S r false [] [b] _ (Or.inr (Or.inr (by simp))) hf

theorem scanLoop_escapeField (S : Seps) (p : List Nat) :
    ∀ rest done cur raw,
      scanLoop S (escapeField S p ++ rest) false done cur raw
        = scanLoop S rest false done (cur ++ p) (raw ++ escapeField S p) := by
  induction p with
  | nil => intro rest done cur raw; simp [escapeField]
  | cons b p ih =>
      intro rest done cur raw
      by_cases hb : b = S.fs ∨ b = S.cs ∨ b = S.es ∨ b = 0
      · have h1 : escapeField S (b :: p) = S.es :: b :: escapeField S p := by
          simp [escapeField, hb]
        rw [h1]
        simp only [List.cons_append]
        rw [scanLoop, if_pos rfl, scanLoop, if_pos hb, ih]
        simp [escapeField, hb]
      · have hbe : ¬ b = S.es := fun h => hb (Or.inr (Or.inr (Or.inl h)))
        have hbf : ¬ b = S.fs := fun h => hb (Or.inl h)
        have hbc : ¬ b = S.cs := fun h => hb (Or.inr (Or.inl h))
        have h1 : escapeField S (b :: p) = b :: escapeField S p := by
          simp [escapeField, hb]
        rw [h1]
        simp only [List.cons_append]
        rw [scanLoop, if_neg hbe, if_neg hbf, if_neg hbc, ih]
        simp [escapeField, hb]

theorem nullPass_eq_self (S : Seps) (bs : List Nat) (h : ∀ b ∈ bs, b ≠ 0) :
    nullPass S bs = bs := by
  induction bs with
  | nil => rfl
  | cons b r ih =>
      have hb : b ≠ 0 := h b (List.mem_cons_self b r)
      have hr : ∀ x ∈ r, x ≠ 0 := fun x hx => h x (List.mem_cons_of_mem b hx)
      simp [nullPass, hb, ih hr]

theorem escapeField_no_nul (S : Seps) (hes : S.es ≠ 0) (p : List Nat)
    (h : ∀ b ∈ p, b ≠ 0) : ∀ x ∈ escapeField S p, x ≠ 0 := by
  induction p with
  | nil => intro x hx; simp [escapeField] at hx
  | cons b r ih =>
      intro x hx
      have hb : b ≠ 0 := h b (List.mem_cons_self b r)
      have hr : ∀ y ∈ r, y ≠ 0 := fun y hy => h y (List.mem_cons_of_mem b hy)
      simp only [escapeField] at hx
      rcases List.mem_append.mp hx with h1 | h1
      · split at h1
        · rcases List.mem_cons.mp h1 with h2 | h2
          · rw [h2]; exact hes
          · have hx2 : x = b := by simpa using h2
            rw [hx2]; exact hb
        · have hx2 : x = b := by simpa using h1
          rw [hx2]; exact hb
      · exact ih hr x h1

theorem rsvOk_escape (S : Seps) (hes : S.es ≠ 0) (hfs : S.fs ≠ 0) (hcs : S.cs ≠ 0)
    (p : List Nat) : ∀ rest,
      rsvOk S (nullPass S (escapeField S p) ++ rest) false = rsvOk S rest false := by
  induction p with
  | nil => intro rest; simp [escapeField, nullPass]
  | cons b p ih =>
      intro rest
      by_cases hb : b = S.fs ∨ b = S.cs ∨ b = S.es ∨ b = 0
      · have h1 : escapeField S (b :: p) = S.es :: b :: escapeField S p := by
          simp [escapeField, hb]
        rw [h1]
        by_cases hb0 : b = 0
        · subst hb0
          have h2 : nullPass S (S.es :: (0 : Nat) :: escapeField S p)
              = S.es :: S.es :: 0 :: nullPass S (escapeField S p) := by
            simp [nullPass, hes]
          rw [h2]
          simp only [List.cons_append]
          rw [rsvOk, if_pos rfl, rsvOk, rsvOk,
            if_neg (fun h => hes h.symm),
            if_neg (show ¬((0 : Nat) = S.fs ∨ (0 : Nat) = S.cs) from
              fun h => h.elim (fun h2 => hfs h2.symm) (fun h2 => hcs h2.symm))]
          exact ih rest
        · have h2 : nullPass S (S.es :: b :: escapeField S p)
              = S.es :: b :: nullPass S (escapeField S p) := by
            simp [nullPass, hes, hb0]
          rw [h2]
          simp only [List.cons_append]
          rw [rsvOk, if_pos rfl, rsvOk]
          exact ih rest
      · have hbe : ¬ b = S.es := fun h => hb (Or.inr (Or.inr (Or.inl h)))
        have hbf : ¬ b = S.fs := fun h => hb (Or.inl h)
        have hbc : ¬ b = S.cs := fun h => hb (Or.inr (Or.inl h))
        have hb0 : ¬ b = 0 := fun h => hb (Or.inr (Or.inr (Or.inr h)))
        have h1 : escapeField S (b :: p) = b :: escapeField S p := by
          simp [escapeField, hb]
        have h2 : nullPass S (b :: escapeField S p)
            = b :: nullPass S (escapeField S p) := by
          simp [nullPass, hb0]
        rw [h1, h2]
        simp only [List.cons_append]
        rw [rsvOk, if_neg hbe, if_neg (show ¬(b = S.fs ∨ b = S.cs) from
          fun h => h.elim hbf hbc)]
        exact ih rest

theorem encodeFields_append_ok (S : Seps) (b : Board) (l1 l2 : List (Char × PyValue)) :
    ∀ xs, encodeFields S b l1 = .ok xs →
      encodeFields S b (l1 ++ l2) =
        (match encodeFields S b l2 with
         | .error e => .error e
         | .ok ys => .ok (xs ++ ys)) := by
  induction l1 with
  | nil =>
      intro xs h
      simp only [encodeFields] at h
      injection h with h
      subst h
      cases henc : encodeFields S b l2 <;> simp [henc]
  | cons cv r ih =>
      intro xs h
      obtain ⟨c, v⟩ := cv
      simp only [encodeFields, List.cons_append] at h ⊢
      cases hm : sendMethod S b c v with
      | error e => rw [hm] at h; exact absurd h (by simp)
      | ok bs =>
          rw [hm] at h
          cases hr : encodeFields S b r with
          | error e => rw [hr] at h; exact absurd h (by simp)
          | ok rest =>
              rw [hr] at h
              injection h with h
              subst h
              simp only [List.append_eq]
              rw [ih rest hr]
              cases henc : encodeFields S b l2 <;> simp

theorem pyIndex_out (names : List String) (i : ℤ)
    (h : (names.length : ℤ) ≤ i ∨ i < -(names.length : ℤ)) : pyIndex names i = none := by
  rcases h with h | h
  · have h0 : 0 ≤ i := le_trans (by positivity) h
    rw [pyIndex, if_pos h0]
    apply List.get?_eq_none.mpr
    omega
  · have h0 : ¬ (0 ≤ i) := by omega
    have h1 : ¬ (0 ≤ i + (names.length : ℤ)) := by omega
    rw [pyIndex, if_neg h0, if_neg h1]

/-- Claim C1: the round-trip decode(encode(v)) == v cannot hold for the
char format, a code bug: _send_char tests len(value) > 0 where its own
error message demands a single character, so every nonempty char value
raises ValueError, and the empty value then fails struct.pack (which
requires exactly one byte); char encoding therefore never succeeds at all,
shown here together with the concrete single-character input a. -/
theorem c1_char_roundtrip_code_bug :
    (∀ v : PyValue, (sendChar v).isOk = false) ∧
      sendChar (.str ("a")) = .error .valueError := by
  constructor
  · intro v
    cases v with
    | str s =>
        obtain ⟨cs⟩ := s
        cases cs with
        | nil => rfl
        | cons c cs =>
            have h : (String.mk (c :: cs)).length > 0 := by
              simp [String.length]
            simp [sendChar, h, Except.isOk, Except.toBool]
    | bytes bs =>
        cases bs with
        | nil => rfl
        | cons x xs => simp [sendChar, Except.isOk, Except.toBool]
    | int n => rfl
    | float q => rfl
    | bool b => rfl
    | inff s => rfl
    | nan => rfl
  · rfl

/-- Claim C2 counterexample: the one-byte payload NUL does not survive
escape then unescape: the per-field escape turns it into escape+NUL, the
whole-frame NUL pass escapes that NUL again into escape+escape+NUL, and the
receive state machine unescapes that to escape+NUL, not NUL. -/
theorem c2_nul_roundtrip_counterexample :
    (scan0 defSep (nullPass defSep (escapeField defSep [0]) ++ [defSep.cs])).fields
        = [[47, 0]] ∧ [[47, 0]] ≠ [[(0 : Nat)]] := by
  constructor
  · rfl
  · decide

/-- Claim C2 (amended): a payload containing the field separator, command
separator and escape byte in any mix and repetition, but no NUL byte,
survives the send-side escape passes and the receive-side unescaping state
machine unchanged: scanning the escaped payload followed by the command
separator yields exactly the original payload as the single field. -/
theorem c2_escape_roundtrip_no_nul (S : Seps) (p : List Nat)
    (hes : S.es ≠ 0) (hcse : S.cs ≠ S.es) (hcsf : S.cs ≠ S.fs)
    (hp : ∀ b ∈ p, b ≠ 0) :
    (scan0 S (nullPass S (escapeField S p) ++ [S.cs])).fields = [p] ∧
      (scan0 S (nullPass S (escapeField S p) ++ [S.cs])).found = true := by
  have h1 : nullPass S (escapeField S p) = escapeField S p :=
    nullPass_eq_self S _ (escapeField_no_nul S hes p hp)
  rw [h1]
  unfold scan0
  rw [scanLoop_escapeField, scanLoop, if_neg hcse, if_neg hcsf, if_pos rfl]
  constructor <;> simp

/-- Witness for the amended C2 at a concrete NUL-free payload holding the
escape byte, the field separator and the command separator, repeated and at
both boundaries. -/
theorem c2_escape_roundtrip_witness :
    (defSep.es ≠ 0 ∧ ∀ b ∈ [47, 44, 59, 59, 44, 47], b ≠ (0 : Nat)) ∧
      (scan0 defSep (nullPass defSep (escapeField defSep [47, 44, 59, 59, 44, 47])
          ++ [defSep.cs])).fields = [[47, 44, 59, 59, 44, 47]] :=
  ⟨⟨by decide, by decide⟩,
    (c2_escape_roundtrip_no_nul defSep [47, 44, 59, 59, 44, 47]
      (by decide) (by decide) (by decide) (by decide)).1⟩

/-- Claim C3 counterexample: the packed bytes of int 44 on a 16-bit
little-endian profile are the field-separator byte followed by NUL; the
field separator sits unescaped inside the transmitted field payload, and
the compiled frame for send("c", 44) parses back into three fields instead
of two. -/
theorem c3_unescaped_int_counterexample :
    sendMethod defSep demoBoard ('i') (.int 44) = .ok [44, 0] ∧
      rsvOk defSep (nullPass defSep [44, 0]) false = false ∧
      send defSep demoBoard ["c"] [] ("c") [.int 44] (some ['i'])
          = .ok [48, 44, 44, 47, 0, 59] ∧
      (scan0 defSep [48, 44, 44, 47, 0, 59]).fields = [[48], [], [0]] := by
  refine ⟨by rfl, by rfl, by rfl, by rfl⟩

/-- Claim C3 (amended): string-format field payloads never contain an
unescaped field or command separator after the escape passes (every
reserved byte in the text is escaped, and the NUL pass only adds escape
pairs); binary numeric payloads carry no such guarantee, as the
counterexample shows. -/
theorem c3_string_fields_no_unescaped_sep (S : Seps) (v : PyValue) (bs : List Nat)
    (hes : S.es ≠ 0) (hfs : S.fs ≠ 0) (hcs : S.cs ≠ 0)
    (h : sendString S v = .ok bs) :
    rsvOk S (nullPass S bs) false = true := by
  have hex : ∃ w, bs = escapeField S w := by
    cases v with
    | bytes w =>
        simp only [sendString] at h
        injection h with h
        exact ⟨w, h.symm⟩
    | str s =>
        simp only [sendString] at h
        split at h
        · injection h with h; exact ⟨_, h.symm⟩
        · exact absurd h (by simp)
    | int n =>
        simp only [sendString] at h
        split at h
        · injection h with h; exact ⟨_, h.symm⟩
        · exact absurd h (by simp)
    | float q =>
        simp only [sendString] at h
        split at h
        · injection h with h; exact ⟨_, h.symm⟩
        · exact absurd h (by simp)
    | bool b =>
        simp only [sendString] at h
        split at h
        · injection h with h; exact ⟨_, h.symm⟩
        · exact absurd h (by simp)
    | inff s =>
        simp only [sendString] at h
        split at h
        · injection h with h; exact ⟨_, h.symm⟩
        · exact absurd h (by simp)
    | nan =>
        simp only [sendString] at h
        split at h
        · injection h with h; exact ⟨_, h.symm⟩
        · exact absurd h (by simp)
  obtain ⟨w, hw⟩ := hex
  subst hw
  have h2 := rsvOk_escape S hes hfs hcs w []
  simpa [rsvOk] using h2

/-- Witness for the amended C3 at the concrete string a,b whose escaped
payload carries an escaped field separator. -/
theorem c3_string_fields_witness :
    sendString defSep (.str ("a,b")) = .ok [97, 47, 44, 98] ∧
      rsvOk defSep (nullPass defSep [97, 47, 44, 98]) false = true :=
  ⟨by rfl,
    c3_string_fields_no_unescaped_sep defSep (.str ("a,b")) [97, 47, 44, 98]
      (by decide) (by decide) (by decide) (by rfl)⟩

/-- Claim C4: code bug.  The constructor never stores command_formats (the
registry stays empty), so a send with no explicit formats falls back to
guess even for a registered command: the argument 5 goes out as the ASCII
text 5, not as the registered binary int encoding.  Moreover, were the
registry populated, the send path assigns the lookup to arg_formats while
arg_format_list stays empty, so the same call would raise the
format-count ValueError instead of using the registered formats. -/
theorem c4_registered_formats_ignored :
    send defSep demoBoard ["c"] (initRegistry [(("c" : String), ['i'])]) ("c")
        [.int 5] none = .ok [48, 44, 53, 59] ∧
    sendMethod defSep demoBoard ('i') (.int 5) = .ok [5, 0] ∧
    ([48, 44, 53, 59] : List Nat) ≠ compileFrame defSep [[48], [5, 0]] ∧
    send defSep demoBoard ["c"] [(("c" : String), ['i'])] ("c") [.int 5] none
        = .error .valueError := by
  refine ⟨by rfl, by rfl, by decide, by rfl⟩

/-- Claim C5 counterexample: on the field bytes of the text 1e5 the
integer parse fails and the float parse succeeds at 100000, so the claim
demands the float value; the code instead takes the no-decimal-point
branch, where int() raises, and returns the string 1e5. -/
theorem c5_guess_priority_counterexample :
    pyIntParse ['1', 'e', '5'] = none ∧
      floatAccepts ['1', 'e', '5'] = true ∧
      pyFloatVal ['1', 'e', '5'] = some 100000 ∧
      recvGuess [49, 101, 53] = .ok (.str ("1e5")) := by
  refine ⟨by rfl, by rfl, by decide, by rfl⟩

/-- Claim C5 (amended): on ASCII field bytes guess decoding never raises;
when the text passes the float() test and has no decimal point, the result
is the integer parse when that succeeds, and otherwise the stripped string
decode — the float value is never returned for dot-free text. -/
theorem c5_guess_ascii_total (bs : List Nat) (h : ∀ x ∈ bs, x < 128) :
    (recvGuess bs).isOk = true ∧
      (∀ n : ℤ, (bs.map Char.ofNat).contains '.' = false →
        pyIntParse (bs.map Char.ofNat) = some n →
        floatAccepts (bs.map Char.ofNat) = true →
        recvGuess bs = .ok (.int n)) ∧
      ((bs.map Char.ofNat).contains '.' = false →
        pyIntParse (bs.map Char.ofNat) = none →
        recvGuess bs = recvStringE bs) := by
  have hd := utf8Decode_ascii bs h
  refine ⟨?_, ?_, ?_⟩
  · simp only [recvGuess, hd]
    by_cases hacc : floatAccepts (bs.map Char.ofNat) = true
    · simp only [hacc, if_true]
      by_cases hdot : (bs.map Char.ofNat).contains '.' = true
      · simp only [hdot, if_true]
        cases pyFloatVal (bs.map Char.ofNat) with
        | some q => rfl
        | none => exact recvStringE_ok bs h
      · simp only [Bool.not_eq_true] at hdot
        simp only [hdot, Bool.false_eq_true, if_false]
        cases pyIntParse (bs.map Char.ofNat) with
        | some n => rfl
        | none => exact recvStringE_ok bs h
    · simp only [Bool.not_eq_true] at hacc
      simp only [hacc, Bool.false_eq_true, if_false]
      exact recvStringE_ok bs h
  · intro n hdot hint hacc
    simp only [recvGuess, hd, hacc, if_true, hdot, Bool.false_eq_true, if_false, hint]
  · intro hdot hint
    simp only [recvGuess, hd, hdot, Bool.false_eq_true, if_false, hint]
    by_cases hacc : floatAccepts (bs.map Char.ofNat) = true
    · simp only [hacc, if_true]
    · simp only [Bool.not_eq_true] at hacc
      simp only [hacc, Bool.false_eq_true, if_false]

/-- Witness for the amended C5 at the concrete ASCII field bytes of 12. -/
theorem c5_guess_ascii_witness :
    (∀ x ∈ [49, 50], x < (128 : Nat)) ∧ (recvGuess [49, 50]).isOk = true :=
  ⟨by decide, (c5_guess_ascii_total [49, 50] (by decide)).1⟩

/-- Claim C6 counterexample: a single non-UTF-8 byte followed by the read
timeout is non-whitespace truncated input, so the claim demands the
MalformedFrame error with the partial raw bytes; the error construction
interpolates joined_raw.decode() first, so the call raises a
UnicodeDecodeError instead. -/
theorem c6_nonutf8_truncation_counterexample :
    stripBytes [255] ≠ [] ∧
      receive defSep demoBoard [] [] none 0 [255] = .error .unicodeError ∧
      (PyErr.unicodeError ≠ PyErr.mangled [255]) := by
  refine ⟨by decide, by rfl, by decide⟩

/-- Claim C6 (amended): when the scan ends without a command separator,
receive returns the no-message outcome when nothing was accumulated or the
raw bytes are whitespace-only, and otherwise fails — with MalformedFrame
carrying the partial raw bytes when those decode as text, and with a
text-decoding error when they do not. -/
theorem c6_timeout_classification (S : Seps) (b : Board) (names : List String)
    (reg : List (String × List Char)) (af : Option (List Char)) (t : ℚ) (bs : List Nat)
    (hf : (scan0 S bs).found = false) :
    (stripBytes bs = [] → receive S b names reg af t bs = .ok none) ∧
      (stripBytes bs ≠ [] →
        receive S b names reg af t bs =
          (if (utf8Decode bs).isSome then .error (.mangled bs) else .error .unicodeError)) := by
  have hraw : (scan0 S bs).raw = bs := by
    have h2 := scanLoop_raw S bs false [] [] [] hf
    simpa [scan0] using h2
  constructor
  · intro hws
    have hc : classifyScan (scan0 S bs) = .noMessage := by
      unfold classifyScan
      by_cases hfields : (scan0 S bs).fields = [[]]
      · rw [if_pos hfields]
      · rw [if_neg hfields, if_pos hf, hraw, if_pos hws]
    unfold receive
    rw [hc]
  · intro hws
    have hbs : bs ≠ [] := by
      intro hnil
      rw [hnil] at hws
      exact hws rfl
    have hfields : (scan0 S bs).fields ≠ [[]] := by
      cases bs with
      | nil => exact absurd rfl hbs
      | cons x xs => exact scan0_fields_ne S x xs hf
    have hc : classifyScan (scan0 S bs)
        = (if (utf8Decode bs).isSome then ScanClass.mangled bs else ScanClass.unicodeErr) := by
      unfold classifyScan
      rw [if_neg hfields, if_pos hf, hraw, if_neg hws]
    unfold receive
    rw [hc]
    by_cases hu : (utf8Decode bs).isSome
    · rw [if_pos hu, if_pos hu]
    · rw [if_neg hu, if_neg hu]

/-- Witness for the amended C6 at the concrete truncated input byte 2:
accumulated, non-whitespace, UTF-8 decodable, so receive raises the
mangled-message error carrying the raw byte. -/
theorem c6_timeout_classification_witness :
    ((scan0 defSep [50]).found = false ∧ stripBytes [50] ≠ []) ∧
      receive defSep demoBoard [] [] none 0 [50] = .error (.mangled [50]) :=
  ⟨⟨by rfl, by decide⟩, by
    rw [(c6_timeout_classification defSep demoBoard [] [] none 0 [50] (by rfl)).2 (by decide)]
    rfl⟩

/-- Helper for C7: success of the float-or-double send path on a float
value is exactly the range check against the bounds it was handed. -/
theorem sendFloatG_float_isOk (w : Nat) (lo hi : ℚ) (q : ℚ) :
    (sendFloatG w lo hi (.float q)).isOk = true ↔ (lo ≤ q ∧ q ≤ hi) := by
  simp only [sendFloatG, pyToFloat]
  by_cases hc : hi < q ∨ q < lo
  · rw [if_pos hc]
    simp only [Except.isOk, Except.toBool]
    constructor
    · intro h
      exact absurd h (by decide)
    · rintro ⟨h1, h2⟩
      rcases hc with hc | hc <;> linarith
  · rw [if_neg hc]
    push_neg at hc
    simp only [Except.isOk, Except.toBool, true_iff]
    exact ⟨hc.2, hc.1⟩

/-- Helper for C7: the same characterization for an int value. -/
theorem sendFloatG_int_isOk (w : Nat) (lo hi : ℚ) (n : ℤ) :
    (sendFloatG w lo hi (.int n)).isOk = true ↔ (lo ≤ (n : ℚ) ∧ (n : ℚ) ≤ hi) := by
  simp only [sendFloatG, pyToFloat]
  by_cases hc : hi < (n : ℚ) ∨ (n : ℚ) < lo
  · rw [if_pos hc]
    simp only [Except.isOk, Except.toBool]
    constructor
    · intro h
      exact absurd h (by decide)
    · rintro ⟨h1, h2⟩
      rcases hc with hc | hc <;> linarith
  · rw [if_neg hc]
    push_neg at hc
    simp only [Except.isOk, Except.toBool, true_iff]
    exact ⟨hc.2, hc.1⟩

/-- Claim C7 (amended): encoding a numeric value under the double format
succeeds exactly when the value lies within the FLOAT min and max of the profile
bounds — the source range-checks _send_double against board.float_max and
board.float_min, not the double bounds. -/
theorem c7_double_range_uses_float_bounds (b : Board) :
    (∀ q : ℚ, (sendDouble b (.float q)).isOk = true ↔
        (b.float_min ≤ q ∧ q ≤ b.float_max)) ∧
      (∀ n : ℤ, (sendDouble b (.int n)).isOk = true ↔
        (b.float_min ≤ (n : ℚ) ∧ (n : ℚ) ≤ b.float_max)) := by
  constructor
  · intro q
    unfold sendDouble
    exact sendFloatG_float_isOk b.double_width b.float_min b.float_max q
  · intro n
    unfold sendDouble
    exact sendFloatG_int_isOk b.double_width b.float_min b.float_max n

/-- Claim C7 counterexample: on a profile whose double bounds exceed its
float bounds (doubles are 8 bytes wide there), the value 1e100 lies within
the declared double bounds, yet encoding under the double format raises the
range error, because the code compares against the float bounds. -/
theorem c7_double_float_bounds_counterexample :
    sendDouble demoBoard
        (.float 10000000000000000000000000000000000000000000000000000000000000000000000000000000000000000000000000000)
        = .error .overflowError ∧
      demoBoard.double_min
          ≤ (10000000000000000000000000000000000000000000000000000000000000000000000000000000000000000000000000000 : ℚ) ∧
      (10000000000000000000000000000000000000000000000000000000000000000000000000000000000000000000000000000 : ℚ)
          ≤ demoBoard.double_max ∧
      demoBoard.float_max
          < 10000000000000000000000000000000000000000000000000000000000000000000000000000000000000000000000000000 := by
  refine ⟨by rfl, by decide, by decide, by decide⟩

/-- Claim C8: a send call whose int-format argument lies above the declared
int maximum or below the minimum raises the range error (OverflowError) and
writes nothing to the Transport — the error return carries no frame, and
the board write only happens on the ok path, after every field has
encoded.  The arguments before the offending one are assumed to encode, as
the loop aborts at the first exception. -/
theorem c8_int_range_error_no_write (S : Seps) (b : Board) (names : List String)
    (reg : List (String × List Char)) (cmd : String) (cid : Nat)
    (fpre fpost : List Char) (pre post : List PyValue) (v : ℤ)
    (hcmd : cmdNameToInt names cmd = some cid)
    (hl1 : fpre.length = pre.length)
    (hl2 : fpost.length = post.length)
    (henc : ∃ xs, encodeFields S b (fpre.zip pre) = .ok xs)
    (hrange : b.int_max < v ∨ v < b.int_min) :
    send S b names reg cmd (pre ++ PyValue.int v :: post) (some (fpre ++ 'i' :: fpost))
        = .error .overflowError := by
  obtain ⟨xs, hxs⟩ := henc
  have hlen : (fpre ++ 'i' :: fpost).length = (pre ++ PyValue.int v :: post).length := by
    simp [hl1, hl2]
  have hzip : (fpre ++ 'i' :: fpost).zip (pre ++ PyValue.int v :: post)
      = fpre.zip pre ++ ('i', PyValue.int v) :: fpost.zip post := by
    rw [List.zip_append hl1]
    rfl
  have hsm : sendMethod S b ('i') (.int v) = .error .overflowError := by
    simp [sendMethod, sendIntG, pyToInt, hrange]
  have hne : ¬ (fpre ++ 'i' :: fpost).length ≠ (pre ++ PyValue.int v :: post).length :=
    fun hne => hne hlen
  unfold send
  rw [hcmd]
  simp only [hzip, if_neg hne]
  rw [encodeFields_append_ok S b _ _ xs hxs]
  simp only [encodeFields, hsm]

/-- Witness for C8: on the 16-bit profile the value 40000 exceeds the int
maximum, and the whole send call returns the overflow error with nothing
written. -/
theorem c8_int_range_error_witness :
    cmdNameToInt ["c"] ("c") = some 0 ∧
      (demoBoard.int_max < 40000 ∨ (40000 : ℤ) < demoBoard.int_min) ∧
      send defSep demoBoard ["c"] [] ("c") [.int 40000] (some ['i'])
        = .error .overflowError :=
  ⟨by rfl, by decide,
    c8_int_range_error_no_write defSep demoBoard ["c"] [] ("c") 0 [] [] [] [] 40000
      (by rfl) (by rfl) (by rfl) ⟨[], by rfl⟩ (by decide)⟩

/-- Claim C9 counterexample: with commands [a, b], the received frame -1;
parses to the id -1, which is outside [0, 2); the claim demands the
sentinel name unknown, but Python negative indexing resolves
command_names[-1] to the last command, and receive delivers the message
under the name b. -/
theorem c9_negative_id_counterexample :
    receive defSep demoBoard ["a", "b"] [] none 0 [45, 49, 59]
        = .ok (some (("b"), [], 0)) ∧ (("b") : String) ≠ ("unknown") := by
  refine ⟨by rfl, by decide⟩

/-- Claim C9 (amended): a received frame whose command-id field parses to
an integer outside [-len(command_names), len(command_names)) is delivered
non-fatally under the sentinel name unknown, together with the decoded
argument fields (all decoded under the guess fallback, since the registry
is empty and no explicit formats are given — provided each field decodes)
and the timestamp; ids in [-len, 0) instead resolve to names counted from
the end of the table. -/
theorem c9_out_of_table_unknown (b : Board) (names : List String) (t : ℚ)
    (f0 : List Nat) (rest : List (List Nat)) (cs : List Char) (i : ℤ) (vals : List PyValue)
    (hdec : utf8Decode (stripBytes f0) = some cs)
    (hparse : pyIntParse cs = some i)
    (hout : (names.length : ℤ) ≤ i ∨ i < -(names.length : ℤ))
    (hvals : decodeFields b ((List.replicate rest.length 'g').zip rest) = .ok vals) :
    processFields b names [] none t (f0 :: rest) = .ok (some (("unknown"), vals, t)) := by
  simp only [processFields, hdec, hparse, pyIndex_out names i hout, lookupReg, Option.getD]
  rw [if_neg (show ¬ (List.replicate rest.length 'g').length ≠ rest.length by simp)]
  rw [hvals]

/-- Witness for the amended C9: id field 5 against the one-command table
resolves to unknown and the single argument field decodes under guess. -/
theorem c9_out_of_table_witness :
    (utf8Decode (stripBytes [53]) = some ['5'] ∧ pyIntParse ['5'] = some 5 ∧
      (((["a"] : List String).length : ℤ) ≤ 5 ∨ (5 : ℤ) < -((["a"] : List String).length : ℤ)) ∧
      decodeFields demoBoard ((List.replicate [[49]].length 'g').zip [[49]]) = .ok [.int 1]) ∧
      processFields demoBoard ["a"] [] none 0 [[53], [49]]
        = .ok (some (("unknown"), [.int 1], 0)) :=
  ⟨⟨by rfl, by rfl, by decide, by rfl⟩,
    c9_out_of_table_unknown demoBoard ["a"] 0 [53] [[49]] ['5'] 5 [.int 1]
      (by rfl) (by rfl) (by decide) (by rfl)⟩

/-- Claim C10 counterexample: the float value 0.0 is not one of True,
False, 0, 1, yet _send_bool accepts it — the membership test value in
[0, 1] uses numeric equality, which 0.0 passes — and packs the byte 0, 
where the claim demands ValueError. -/
theorem c10_float_zero_accepted_counterexample :
    sendBool (.float 0) = .ok [0] ∧
      (PyValue.float 0) ∉ ([.bool true, .bool false, .int 0, .int 1] : List PyValue) := by
  refine ⟨by rfl, by decide⟩

/-- Claim C10 (amended): bool encoding accepts True, False, and every
value comparing numerically equal to 0 or 1 (so also 0.0 and 1.0); an
accepted value packs to the single byte 1 when truthy and 0 when falsy,
and everything else raises ValueError. -/
theorem c10_bool_numeric_equality (v : PyValue) :
    (pyEqInt v 1 = true → sendBool v = .ok [1]) ∧
      (pyEqInt v 0 = true → sendBool v = .ok [0]) ∧
      ((∀ b : Bool, v ≠ .bool b) → pyEqInt v 0 = false → pyEqInt v 1 = false →
        sendBool v = .error .valueError) := by
  refine ⟨?_, ?_, ?_⟩
  · intro h
    cases v with
    | int n =>
        have hn : n = 1 := by simpa [pyEqInt] using h
        subst hn
        rfl
    | float q =>
        have hq : q = 1 := by simpa [pyEqInt] using h
        subst hq
        rfl
    | bool b =>
        cases b with
        | true => rfl
        | false => simp [pyEqInt] at h
    | str s => simp [pyEqInt] at h
    | bytes bs => simp [pyEqInt] at h
    | inff s => simp [pyEqInt] at h
    | nan => simp [pyEqInt] at h
  · intro h
    cases v with
    | int n =>
        have hn : n = 0 := by simpa [pyEqInt] using h
        subst hn
        rfl
    | float q =>
        have hq : q = 0 := by simpa [pyEqInt] using h
        subst hq
        rfl
    | bool b =>
        cases b with
        | true => simp [pyEqInt] at h
        | false => rfl
    | str s => simp [pyEqInt] at h
    | bytes bs => simp [pyEqInt] at h
    | inff s => simp [pyEqInt] at h
    | nan => simp [pyEqInt] at h
  · intro hnb h0 h1
    cases v with
    | bool b => exact absurd rfl (hnb b)
    | int n => simp [sendBool, h0, h1]
    | float q => simp [sendBool, h0, h1]
    | str s => rfl
    | bytes bs => rfl
    | inff s => rfl
    | nan => rfl

/-- Witness for the amended C10 at the concrete rejected value, the string
x, which is neither a bool nor numerically 0 or 1. -/
theorem c10_bool_numeric_equality_witness :
    ((∀ b : Bool, PyValue.str ("x") ≠ .bool b) ∧ pyEqInt (.str ("x")) 0 = false ∧
      pyEqInt (.str ("x")) 1 = false) ∧
      sendBool (.str ("x")) = .error .valueError :=
  ⟨⟨by decide, by decide, by decide⟩,
    (c10_bool_numeric_equality (.str ("x"))).2.2 (by decide) (by decide) (by decide)⟩

/-- Witness for the amended C7: on the concrete profile the value 1000
lies within the float bounds and double encoding accordingly succeeds. -/
theorem c7_double_range_witness :
    (demoBoard.float_min ≤ (1000 : ℚ) ∧ (1000 : ℚ) ≤ demoBoard.float_max) ∧
      (sendDouble demoBoard (.float 1000)).isOk = true :=
  ⟨⟨by decide, by decide⟩,
    ((c7_double_range_uses_float_bounds demoBoard).1 1000).mpr ⟨by decide, by decide⟩⟩
